import Mathlib

/-!
Verification development for the consolidated-allocation merger
(`src/app.py`).  The pandas/openpyxl pipeline is shallowly embedded:
spreadsheet cells become an inductive `Cell` type (with `blank`
standing for NaN/empty), data frames become `Table`s of `Row`s,
Python dicts become insertion-ordered association lists, and the
emitted workbook becomes a pure `Workbook` value holding every cell
value the writer produces.  Numeric cells are modelled as integers;
pandas' numeric coercion of the non-key columns (applied per cell in
`merge_allocations`) is applied per cell at read time, which is
equivalent since the coercion is cellwise.
-/

namespace AllocApp

/-- A spreadsheet cell as pandas sees it: a string, a number, or
NaN/empty (`blank`). -/
inductive Cell where
  | s (v : String)
  | n (v : Int)
  | blank
deriving DecidableEq, Repr

/-- Python `str(...)` of a cell; `str(nan) = "nan"`, mirroring
`astype(str)` / `str(raw.iloc[6, col_idx])` in `app.py`. -/
def strOfCell : Cell → String
  | .s v => v
  | .n v => toString v
  | .blank => "nan"

/-- `pd.to_numeric(errors="coerce")` on one cell: numbers pass
through, numeric strings parse, everything else becomes missing. -/
def toNumeric : Cell → Option Int
  | .n v => some v
  | .s v => v.toInt?
  | .blank => none

/-- A non-blank cell, as `pandas` "non-null"; used for the key-field
`first` aggregation. -/
def optCell : Cell → Option Cell
  | .blank => none
  | c => some c

/-! ### Insertion-ordered dictionaries (Python `dict`) -/

/-- Python dict lookup. -/
def dget {α : Type} (d : List (String × α)) (k : String) : Option α :=
  (d.find? (fun p => p.1 == k)).map (fun p => p.2)

/-- Python dict assignment `d[k] = v`: replaces in place when the key
exists, appends otherwise (insertion order preserved). -/
def dset {α : Type} (d : List (String × α)) (k : String) (v : α) :
    List (String × α) :=
  match d with
  | [] => [(k, v)]
  | p :: rest => if p.1 == k then (k, v) :: rest else p :: dset rest k v

/-- Python `d.setdefault(k, v)`. -/
def dsetdefault {α : Type} (d : List (String × α)) (k : String) (v : α) :
    List (String × α) :=
  match dget d k with
  | some _ => d
  | none => d ++ [(k, v)]

/-- Python `d.setdefault(k, {})` followed by mutating the entry with
`f` (as in `meta.setdefault(k, {}).update(v)`). -/
def dsetdefaultUpdate {α : Type} (d : List (String × List (String × α)))
    (k : String) (f : List (String × α) → List (String × α)) :
    List (String × List (String × α)) :=
  match dget d k with
  | some e => dset d k (f e)
  | none => d ++ [(k, f [])]

/-! ### The allocation tables -/

/-- The 11 fixed key columns (`KEY_COLS` in `app.py`). -/
def KEY_COLS : List String :=
  ["Store Number", "Store Name", "Address Line 1", "Address Line 2",
   "City or Town", "County", "Country", "Post Code", "Region / Area",
   "Location Type", "Trading Format"]

/-- One data-frame row: the stringified Store Number
(`df["Store Number"].astype(str)`), the ten remaining key fields
(missing = `none`), and the item cells (post numeric coercion,
missing = `none`). -/
structure Row where
  store : String
  keys : List (Option Cell)
  items : List (String × Option Int)
deriving DecidableEq, Repr

/-- Item-cell lookup in a row; a column the row's source file did not
have behaves as missing, exactly as `pd.concat` fills NaN. -/
def getItem (r : Row) (c : String) : Option Int :=
  match (r.items.find? (fun p => p.1 == c)).map (fun p => p.2) with
  | some v => v
  | none => none

/-- A data frame as produced by `extract_alloc_data_and_meta`:
its item-column names (in order) and its rows. -/
structure Table where
  itemCols : List String
  rows : List Row
deriving DecidableEq, Repr

/-- Column union of `pd.concat(dfs, sort=False)`: first table's
columns, then each later table's new columns in order. -/
def unionItemCols (dfs : List Table) : List String :=
  dfs.foldl (fun acc t => acc ++ t.itemCols.filter (fun c => !(acc.contains c))) []

/-- `pd.concat(dfs, ignore_index=True, sort=False)`. -/
def concatTables (dfs : List Table) : Table :=
  { itemCols := unionItemCols dfs
    rows := (dfs.map (fun t => t.rows)).flatten }

/-- First non-null value of a column slice — the pandas `"first"`
groupby aggregation. -/
def firstSome {α : Type} : List (Option α) → Option α
  | [] => none
  | some v :: _ => some v
  | none :: rest => firstSome rest

/-- The rows of the concatenation that fall in store `s`'s group. -/
def groupRows (dfs : List Table) (s : String) : List Row :=
  (concatTables dfs).rows.filter (fun r => r.store == s)

/-- Groupby `"sum"` of item column `c` over store `s`'s group:
non-null values summed, missing counted as 0 (pandas skipna sum,
`min_count=0`). -/
def groupSum (dfs : List Table) (s : String) (c : String) : Int :=
  ((groupRows dfs s).map (fun r => (getItem r c).getD 0)).sum

/-- The aggregated row `merge_allocations` produces for store `s`. -/
def mergedRow (dfs : List Table) (s : String) : Row :=
  { store := s
    keys := (List.range 10).map (fun i =>
      firstSome ((groupRows dfs s).map (fun r => r.keys.getD i none)))
    items := (concatTables dfs).itemCols.map (fun c => (c, some (groupSum dfs s c))) }

/-- Lexicographic comparison of char lists by Unicode scalar value —
how Python (and hence pandas `sort_values` on an `astype(str)`
column) orders strings. -/
def charLe : List Char → List Char → Bool
  | [], _ => true
  | _ :: _, [] => false
  | a :: as, b :: bs =>
      if a.toNat < b.toNat then true
      else if b.toNat < a.toNat then false
      else charLe as bs

/-- String comparison used by `sort_values("Store Number")` after
`astype(str)`: lexicographic over code points. -/
def pyLe (a b : String) : Bool := charLe a.data b.data

/-- `pyLe` as an ordering relation on strings. -/
def stringAsc (a b : String) : Prop := pyLe a b = true

instance (a b : String) : Decidable (stringAsc a b) := by
  unfold stringAsc; infer_instance

/-- Insert into a `pyLe`-sorted list. -/
def insertSorted (x : String) : List String → List String
  | [] => [x]
  | y :: ys => if pyLe x y then x :: y :: ys else y :: insertSorted x ys

/-- Insertion sort by `pyLe`. -/
def sortStrings : List String → List String
  | [] => []
  | x :: xs => insertSorted x (sortStrings xs)

/-- The distinct store numbers of the merged output, ascending in
string order (`groupby("Store Number")` then
`sort_values("Store Number")` on the stringified key). -/
def mergedStores (dfs : List Table) : List String :=
  sortStrings (((concatTables dfs).rows.map (fun r => r.store)).dedup)

/-- Decimal digit accumulator for `parseStoreNumber`. -/
def parseNatChars : List Char → Nat → Option Nat
  | [], acc => some acc
  | c :: rest, acc =>
      if c.isDigit then parseNatChars rest (acc * 10 + (c.toNat - 48)) else none

/-- Numeric reading of a store-number string, used to state what
"sorted in ascending numeric order of Store Number" would mean. -/
def parseStoreNumber (s : String) : Option Nat :=
  match s.data with
  | [] => none
  | cs => parseNatChars cs 0

/-- `merge_allocations(dfs)`: concatenate, coerce non-key columns to
numeric, group by Store Number with `first` on key fields and `sum`
on item fields, sort by Store Number. -/
def merge_allocations (dfs : List Table) : Table :=
  { itemCols := (concatTables dfs).itemCols
    rows := (mergedStores dfs).map (fun s => mergedRow dfs s) }

/-! ### The spreadsheet reader (`extract_alloc_data_and_meta`) -/

/-- A raw worksheet as `pd.read_excel(header=None)` sees it,
row-major; cells beyond a row's extent are blank (NaN). -/
abbrev Grid := List (List Cell)

/-- `raw.iloc[r, c]`. -/
def cellAt (g : Grid) (r c : Nat) : Cell := (g.getD r []).getD c .blank

/-- `raw.shape[1]`: pandas rectangularises to the widest row. -/
def gridWidth (g : Grid) : Nat := (g.map (fun row => row.length)).foldr max 0

/-- `BRIEF_ROW, OVERS_ROW = 1, 4`; the tabular header is row 6
(`header=6`). -/
def BRIEF_ROW : Nat := 1

def OVERS_ROW : Nat := 4

def HEADER_ROW : Nat := 6

/-- Per-item metadata read from one allocation file:
`{"brief_description": ..., "overs": ...}`. -/
structure AllocEntry where
  brief_description : Cell
  overs : Cell
deriving DecidableEq, Repr

/-- `0 if pd.isna(raw.iloc[OVERS_ROW, col_idx]) else ...`. -/
def oversOf (c : Cell) : Cell := if c = .blank then .n 0 else c

/-- Loop body of the meta-extraction over one column index. -/
def metaStep (g : Grid) (m : List (String × AllocEntry)) (c : Nat) :
    List (String × AllocEntry) :=
  let ref := strOfCell (cellAt g HEADER_ROW c)
  if ref = "nan" then m
  else dset m ref
    { brief_description := cellAt g BRIEF_ROW c
      overs := oversOf (cellAt g OVERS_ROW c) }

/-- The meta-extraction loop over an explicit list of column
indices. -/
def extractMetaOver (g : Grid) (idxs : List Nat) : List (String × AllocEntry) :=
  idxs.foldl (metaStep g) []

/-- `range(len(KEY_COLS), raw.shape[1])`. -/
def itemColIdxs (g : Grid) : List Nat :=
  (List.range (gridWidth g)).drop KEY_COLS.length

/-- The per-column metadata mapping of one allocation file. -/
def extract_meta (g : Grid) : List (String × AllocEntry) :=
  extractMetaOver g (itemColIdxs g)

/-- One body row of `pd.read_excel(file, header=6)` followed by
`astype(str)` on Store Number; item cells carry the (cellwise)
numeric coercion later applied by `merge_allocations`. -/
def readRow (itemNames : List String) (cells : List Cell) : Row :=
  { store := strOfCell (cells.getD 0 .blank)
    keys := (List.range 10).map (fun i => optCell (cells.getD (i + 1) .blank))
    items := itemNames.enum.map (fun p =>
      (p.2, toNumeric (cells.getD (KEY_COLS.length + p.1) .blank))) }

/-- The data frame of one allocation file: column names from the
header row (stringified), body rows below it. -/
def extract_df (g : Grid) : Table :=
  { itemCols := ((g.getD HEADER_ROW []).drop KEY_COLS.length).map strOfCell
    rows := (g.drop (HEADER_ROW + 1)).map
      (readRow (((g.getD HEADER_ROW []).drop KEY_COLS.length).map strOfCell)) }

/-- `extract_alloc_data_and_meta(file)`. -/
def extract_alloc_data_and_meta (g : Grid) : Table × List (String × AllocEntry) :=
  (extract_df g, extract_meta g)

/-! ### Combined per-item metadata -/

/-- A per-item metadata entry, a Python dict of fields. -/
abbrev Entry := List (String × Cell)

/-- The combined metadata mapping `meta`. -/
abbrev Meta := List (String × Entry)

/-- The two metadata fields an allocation file supplies. -/
def allocFieldKeys : List String := ["brief_description", "overs"]

/-- The four metadata fields the brief table supplies. -/
def briefFieldKeys : List String :=
  ["pos_code", "project_description", "part", "supplier"]

/-- `.update(v)` with `v` from an allocation file. -/
def updAlloc (v : AllocEntry) (e : Entry) : Entry :=
  dset (dset e "brief_description" v.brief_description) "overs" v.overs

/-- `meta.setdefault(k, {}).update(v)` for one item of one file. -/
def allocStep (m : Meta) (kv : String × AllocEntry) : Meta :=
  dsetdefaultUpdate m kv.1 (updAlloc kv.2)

/-- The inner loop over one file's metadata items. -/
def processFile (m : Meta) (part : List (String × AllocEntry)) : Meta :=
  part.foldl allocStep m

/-- The accumulation loop over all uploaded files, in upload order. -/
def accumAllocMeta (parts : List (List (String × AllocEntry))) : Meta :=
  parts.foldl processFile []

/-- Field lookup in the combined metadata. -/
def metaField (m : Meta) (ref field : String) : Option Cell :=
  (dget m ref).bind (fun e => dget e field)

/-! ### The brief loader (`load_consolidated_brief`) -/

/-- One brief-table entry: the four brief-sourced fields. -/
structure BriefInfo where
  pos_code : Cell
  project_description : Cell
  part : Cell
  supplier : Cell
deriving DecidableEq, Repr

/-- The brief spreadsheet after `pd.read_excel(header=1)`: named
columns and body rows. -/
structure BriefSheet where
  cols : List String
  rows : List (List Cell)
deriving DecidableEq, Repr

/-- The required brief columns, in the order the code checks them. -/
def requiredBriefCols : List String :=
  ["Brief Ref", "POS Code", "Project Description", "Part", "Supplier"]

/-- `[c for c in cols if c not in cb.columns]`. -/
def missingBriefCols (cb : BriefSheet) : List String :=
  requiredBriefCols.filter (fun c => !(cb.cols.contains c))

/-- `row[name]` for a named column of the brief sheet. -/
def colCell (cb : BriefSheet) (row : List Cell) (name : String) : Cell :=
  row.getD (cb.cols.indexOf name) .blank

/-- Python-style leading-whitespace removal on a char list. -/
def dropLeading : List Char → List Char
  | [] => []
  | c :: rest => if c.isWhitespace then dropLeading rest else c :: rest

/-- Python `str.strip()`. -/
def pyStrip (s : String) : String :=
  String.mk (dropLeading ((dropLeading s.data.reverse).reverse))

/-- One row of the brief dict build: rows with a blank Brief Ref are
dropped (`dropna(subset=["Brief Ref"])`); `setdefault` keeps the
first occurrence of a reference. -/
def briefRowStep (cb : BriefSheet) (d : List (String × BriefInfo))
    (row : List Cell) : List (String × BriefInfo) :=
  if colCell cb row "Brief Ref" = Cell.blank then d
  else
    dsetdefault d (pyStrip (strOfCell (colCell cb row "Brief Ref")))
      { pos_code := colCell cb row "POS Code"
        project_description := colCell cb row "Project Description"
        part := colCell cb row "Part"
        supplier := colCell cb row "Supplier" }

/-- `load_consolidated_brief(file)`: returns the user-visible error
message (if any) alongside the mapping, modelling `st.error`. -/
def load_consolidated_brief (file : Option BriefSheet) :
    Option String × List (String × BriefInfo) :=
  match file with
  | none => (none, [])
  | some cb =>
      if (missingBriefCols cb).isEmpty then
        (none, cb.rows.foldl (briefRowStep cb) [])
      else
        (some ("Consolidated Brief missing columns: "
                ++ String.intercalate ", " (missingBriefCols cb)), [])

/-- `.update(info)` with `info` from the brief dict. -/
def updBrief (info : BriefInfo) (e : Entry) : Entry :=
  dset (dset (dset (dset e "pos_code" info.pos_code)
    "project_description" info.project_description) "part" info.part)
    "supplier" info.supplier

/-- The brief-enrichment loop
`meta.setdefault(ref, {}).update(info)`. -/
def applyBrief (m : Meta) (bd : List (String × BriefInfo)) : Meta :=
  bd.foldl (fun acc p => dsetdefaultUpdate acc p.1 (updBrief p.2)) m

/-! ### The workbook writer (`write_with_metadata`) -/

/-- The nine header-block labels, rows 2–10. -/
def LABELS : List String :=
  ["POS Code", "Kit Name", "Project Description", "Part", "Supplier",
   "Brief Description", "Total (inc Overs)", "Total Allocations", "Overs"]

/-- A written cell value; `typeError` marks where Python would raise
(adding a string overs to a numeric total). -/
inductive XVal where
  | val (c : Cell)
  | typeError
deriving DecidableEq, Repr

/-- `master_df[item].fillna(0).sum()`. -/
def colSum (master : Table) (item : String) : Int :=
  (master.rows.map (fun r => (getItem r item).getD 0)).sum

/-- `meta.get(item, {}).get("overs", 0)`. -/
def oversVal (meta : Meta) (item : String) : Cell :=
  (dget ((dget meta item).getD []) "overs").getD (Cell.n 0)

/-- `meta.get(item, {}).get(field, "")`. -/
def strFieldVal (meta : Meta) (item field : String) : Cell :=
  (dget ((dget meta item).getD []) field).getD (Cell.s "")

/-- Python `total_alloc + overs_val`: number + NaN is NaN, number +
string raises. -/
def addOvers (total : Int) : Cell → XVal
  | .n o => .val (.n (total + o))
  | .s _ => .typeError
  | .blank => .val .blank

/-- The value written at header row `label`, item column `item`
(the if/elif chain of the writer; "Kit Name" matches no branch and
stays blank). -/
def headerCellValue (master : Table) (meta : Meta) (label item : String) : XVal :=
  if label = "POS Code" then .val (strFieldVal meta item "pos_code")
  else if label = "Project Description" then
    .val (strFieldVal meta item "project_description")
  else if label = "Part" then .val (strFieldVal meta item "part")
  else if label = "Supplier" then .val (strFieldVal meta item "supplier")
  else if label = "Brief Description" then
    .val (strFieldVal meta item "brief_description")
  else if label = "Total (inc Overs)" then
    addOvers (colSum master item) (oversVal meta item)
  else if label = "Total Allocations" then .val (.n (colSum master item))
  else if label = "Overs" then .val (oversVal meta item)
  else .val .blank

/-- `[c for c in master_df.columns if c not in KEY_COLS]`. -/
def writerItemCols (master : Table) : List String :=
  master.itemCols.filter (fun c => !(KEY_COLS.contains c))

/-- The header block, rows 2–10: each label with its item-column
values. -/
def headerBlock (master : Table) (meta : Meta) : List (String × List XVal) :=
  LABELS.map (fun label =>
    (label, (writerItemCols master).map (fun item =>
      headerCellValue master meta label item)))

/-- One data row as `to_excel` writes it: Store Number, the ten key
fields, then the item cells. -/
def renderRow (itemCols : List String) (r : Row) : List Cell :=
  Cell.s r.store
    :: ((List.range 10).map (fun i => (r.keys.getD i none).getD .blank))
    ++ itemCols.map (fun c =>
        match getItem r c with | some v => Cell.n v | none => Cell.blank)

/-- Every cell value `write_with_metadata` emits: the Project Ref
pair of row 1, the header block, and the data table.  (Formatting —
widths, hidden columns, borders, heights — depends only on the
sheet's dimensions, which are fixed by `master`.) -/
structure Workbook where
  projectRef : String × String
  header : List (String × List XVal)
  dataHeader : List String
  dataRows : List (List Cell)
deriving DecidableEq, Repr

/-- `write_with_metadata(master_df, meta, event_code)`. -/
def write_with_metadata (master : Table) (meta : Meta) (event_code : String) :
    Workbook :=
  { projectRef := ("Project Ref", event_code)
    header := headerBlock master meta
    dataHeader := KEY_COLS ++ master.itemCols
    dataRows := master.rows.map (renderRow master.itemCols) }

/-! ### The interactive pipeline -/

/-- `st.info` text shown when no allocation file is uploaded. -/
def noFilesMsg : String := "Please upload at least one allocation export to begin."

/-- `st.warning` text shown when the event code is blank. -/
def blankCodeMsg : String := "Enter the Event Code - required for export."

/-- The whole run: the two precondition checks (`st.stop`), then
read → accumulate metadata → load brief → enrich → merge → write.
An `error` outcome is a user-visible message with no output file. -/
def runApp (files : List Grid) (brief : Option BriefSheet)
    (event_code : String) : Except String Workbook :=
  if files.isEmpty then .error noFilesMsg
  else if pyStrip event_code = "" then .error blankCodeMsg
  else
    let parts := files.map extract_alloc_data_and_meta
    let metaA := accumAllocMeta (parts.map (fun p => p.2))
    let meta := applyBrief metaA (load_consolidated_brief brief).2
    let master := merge_allocations (parts.map (fun p => p.1))
    .ok (write_with_metadata master meta (pyStrip event_code))

/-! ### Dictionary lemmas -/

theorem dget_nil {α : Type} (k : String) : dget ([] : List (String × α)) k = none := rfl

theorem dget_cons {α : Type} (p : String × α) (d : List (String × α)) (k : String) :
    dget (p :: d) k = if p.1 == k then some p.2 else dget d k := by
  by_cases h : p.1 == k
  · simp [dget, List.find?, h]
  · simp only [Bool.not_eq_true] at h
    simp [dget, List.find?, h]

theorem dget_dset_self {α : Type} (d : List (String × α)) (k : String) (v : α) :
    dget (dset d k v) k = some v := by
  induction d with
  | nil => simp [dset, dget_cons]
  | cons p rest ih =>
      by_cases h : p.1 == k
      · simp [dset, h, dget_cons]
      · simp only [Bool.not_eq_true] at h
        simp [dset, h, dget_cons, ih]

theorem dget_dset_ne {α : Type} (d : List (String × α)) (k k' : String) (v : α)
    (h : k' ≠ k) : dget (dset d k v) k' = dget d k' := by
  induction d with
  | nil =>
      have : (k == k') = false := by simpa using fun hk => h hk.symm
      simp [dset, dget_cons, this]
  | cons p rest ih =>
      by_cases hp : p.1 == k
      · have hk : (k == k') = false := by simpa using fun hk => h hk.symm
        have hp' : p.1 = k := by simpa using hp
        simp [dset, hp, dget_cons, hk, hp']
      · simp only [Bool.not_eq_true] at hp
        simp [dset, hp, dget_cons, ih]

theorem dget_append {α : Type} (d d' : List (String × α)) (k : String) :
    dget (d ++ d') k = (dget d k).or (dget d' k) := by
  induction d with
  | nil => simp [dget_nil]
  | cons p rest ih =>
      by_cases h : p.1 == k
      · simp [dget_cons, h]
      · simp only [Bool.not_eq_true] at h
        simp [dget_cons, h, ih]

theorem dget_dsetdefaultUpdate_ne {α : Type} (d : List (String × List (String × α)))
    (k k' : String) (f : List (String × α) → List (String × α)) (h : k' ≠ k) :
    dget (dsetdefaultUpdate d k f) k' = dget d k' := by
  unfold dsetdefaultUpdate
  cases hd : dget d k with
  | some e => simp [dget_dset_ne d k k' (f e) h]
  | none =>
      have hk : (k == k') = false := by simpa using fun hk => h hk.symm
      rw [dget_append]
      simp [dget_cons, hk, dget_nil]

/-! ### The string order used by the sort -/

theorem charLe_total : ∀ as bs : List Char, charLe as bs = true ∨ charLe bs as = true
  | [], _ => Or.inl rfl
  | _ :: _, [] => Or.inr rfl
  | a :: as, b :: bs => by
      rcases Nat.lt_trichotomy a.toNat b.toNat with h | h | h
      · left; simp [charLe, h]
      · have h1 : ¬ a.toNat < b.toNat := by omega
        have h2 : ¬ b.toNat < a.toNat := by omega
        rcases charLe_total as bs with ih | ih
        · left; simp [charLe, h1, h2, ih]
        · right; simp [charLe, h1, h2, ih]
      · right; simp [charLe, h]

theorem charLe_trans : ∀ as bs cs : List Char,
    charLe as bs = true → charLe bs cs = true → charLe as cs = true
  | [], _, _, _, _ => rfl
  | _ :: _, [], _, h, _ => by simp [charLe] at h
  | _ :: _, _ :: _, [], _, h => by simp [charLe] at h
  | a :: as, b :: bs, c :: cs, h1, h2 => by
      simp only [charLe] at h1 h2 ⊢
      by_cases hab : a.toNat < b.toNat <;> by_cases hba : b.toNat < a.toNat <;>
        by_cases hbc : b.toNat < c.toNat <;> by_cases hcb : c.toNat < b.toNat <;>
        simp [hab, hba, hbc, hcb] at h1 h2 ⊢ <;>
        first
          | omega
          | (simp [show a.toNat < c.toNat by omega])
          | (exact Or.inr ⟨by omega, charLe_trans as bs cs h1 h2⟩)

theorem stringAsc_total (a b : String) : stringAsc a b ∨ stringAsc b a :=
  charLe_total a.data b.data

theorem stringAsc_trans {a b c : String} (h1 : stringAsc a b) (h2 : stringAsc b c) :
    stringAsc a c :=
  charLe_trans a.data b.data c.data h1 h2

/-! ### Sort lemmas -/

theorem mem_insertSorted {z x : String} : ∀ {l : List String},
    z ∈ insertSorted x l ↔ z = x ∨ z ∈ l := by
  intro l
  induction l with
  | nil => simp [insertSorted]
  | cons y ys ih =>
      by_cases h : pyLe x y <;> simp [insertSorted, h, ih] <;> tauto

theorem perm_insertSorted (x : String) : ∀ l : List String,
    (insertSorted x l).Perm (x :: l)
  | [] => List.Perm.refl _
  | y :: ys => by
      by_cases h : pyLe x y
      · simp [insertSorted, h]
      · simp only [insertSorted, h, if_neg, Bool.false_eq_true]
        exact ((perm_insertSorted x ys).cons y).trans (List.Perm.swap x y ys)

theorem perm_sortStrings : ∀ l : List String, (sortStrings l).Perm l
  | [] => List.Perm.refl _
  | x :: xs =>
      (perm_insertSorted x (sortStrings xs)).trans ((perm_sortStrings xs).cons x)

theorem pairwise_insertSorted (x : String) : ∀ l : List String,
    l.Pairwise stringAsc → (insertSorted x l).Pairwise stringAsc := by
  intro l
  induction l with
  | nil => simp [insertSorted]
  | cons y ys ih =>
      intro h
      rcases List.pairwise_cons.mp h with ⟨hy, hys⟩
      by_cases hxy : pyLe x y
      · simp only [insertSorted, hxy, if_pos]
        refine List.pairwise_cons.mpr ⟨?_, h⟩
        intro z hz
        rcases List.mem_cons.mp hz with rfl | hz
        · exact hxy
        · exact stringAsc_trans hxy (hy z hz)
      · have hyx : stringAsc y x := by
          rcases stringAsc_total x y with hx | hx
          · exact absurd hx hxy
          · exact hx
        simp only [insertSorted, hxy, if_neg, Bool.false_eq_true]
        refine List.pairwise_cons.mpr ⟨?_, ih hys⟩
        intro z hz
        rcases mem_insertSorted.mp hz with rfl | hz
        · exact hyx
        · exact hy z hz

theorem pairwise_sortStrings : ∀ l : List String,
    (sortStrings l).Pairwise stringAsc
  | [] => List.Pairwise.nil
  | x :: xs => pairwise_insertSorted x (sortStrings xs) (pairwise_sortStrings xs)

theorem mem_mergedStores (dfs : List Table) (s : String) :
    s ∈ mergedStores dfs ↔ s ∈ (concatTables dfs).rows.map (fun r => r.store) := by
  unfold mergedStores
  rw [(perm_sortStrings _).mem_iff, List.mem_dedup]

theorem nodup_mergedStores (dfs : List Table) : (mergedStores dfs).Nodup := by
  unfold mergedStores
  exact ((perm_sortStrings _).nodup_iff).mpr (List.nodup_dedup _)

/-! ### Merge lemmas -/

theorem find_map_pair {β : Type} (f : String → β) (c : String) :
    ∀ cols : List String, c ∈ cols →
      (cols.map (fun c' => (c', f c'))).find? (fun p => p.1 == c) = some (c, f c) := by
  intro cols
  induction cols with
  | nil => intro h; cases h
  | cons a as ih =>
      intro h
      by_cases hac : a = c
      · subst hac; simp [List.find?]
      · have hb : (a == c) = false := by simpa using hac
        rcases List.mem_cons.mp h with rfl | h
        · exact absurd rfl hac
        · simp [List.find?, hb, ih h]

theorem getItem_mergedRow (dfs : List Table) (s c : String)
    (hc : c ∈ (concatTables dfs).itemCols) :
    getItem (mergedRow dfs s) c = some (groupSum dfs s c) := by
  unfold getItem mergedRow
  rw [find_map_pair (fun c' => some (groupSum dfs s c')) c _ hc]
  rfl

theorem mem_unionFold (c : String) : ∀ (l : List Table) (acc : List String),
    (c ∈ l.foldl (fun acc t => acc ++ t.itemCols.filter (fun c' => !(acc.contains c'))) acc) ↔
      c ∈ acc ∨ ∃ t, t ∈ l ∧ c ∈ t.itemCols := by
  intro l
  induction l with
  | nil => intro acc; simp
  | cons t ts ih =>
      intro acc
      rw [List.foldl_cons, ih]
      simp only [List.mem_append, List.mem_filter, List.mem_cons]
      constructor
      · rintro (((h | ⟨h, _⟩) | ⟨t', ht', hc'⟩))
        · exact Or.inl h
        · exact Or.inr ⟨t, Or.inl rfl, h⟩
        · exact Or.inr ⟨t', Or.inr ht', hc'⟩
      · rintro (h | ⟨t', (rfl | ht'), hc'⟩)
        · exact Or.inl (Or.inl h)
        · by_cases hacc : c ∈ acc
          · exact Or.inl (Or.inl hacc)
          · refine Or.inl (Or.inr ⟨hc', ?_⟩)
            simpa using hacc
        · exact Or.inr ⟨t', ht', hc'⟩

theorem mem_unionItemCols (dfs : List Table) (c : String) :
    c ∈ unionItemCols dfs ↔ ∃ t, t ∈ dfs ∧ c ∈ t.itemCols := by
  unfold unionItemCols
  rw [mem_unionFold]
  simp

/-! ### Metadata lemmas -/

theorem dget_updAlloc_bd (v : AllocEntry) (e : Entry) :
    dget (updAlloc v e) "brief_description" = some v.brief_description := by
  unfold updAlloc
  rw [dget_dset_ne _ _ _ _ (by decide), dget_dset_self]

theorem dget_updAlloc_overs (v : AllocEntry) (e : Entry) :
    dget (updAlloc v e) "overs" = some v.overs := dget_dset_self _ _ _

theorem dget_updBrief_preserve (info : BriefInfo) (e : Entry) (f : String)
    (hf : f ∈ allocFieldKeys) : dget (updBrief info e) f = dget e f := by
  unfold updBrief
  rcases List.mem_cons.mp hf with rfl | hf
  · rw [dget_dset_ne _ _ _ _ (by decide), dget_dset_ne _ _ _ _ (by decide),
      dget_dset_ne _ _ _ _ (by decide), dget_dset_ne _ _ _ _ (by decide)]
  · rcases List.mem_cons.mp hf with rfl | hf
    · rw [dget_dset_ne _ _ _ _ (by decide), dget_dset_ne _ _ _ _ (by decide),
        dget_dset_ne _ _ _ _ (by decide), dget_dset_ne _ _ _ _ (by decide)]
    · cases hf

theorem metaField_eq_dget_getD (m : Meta) (ref f : String) :
    metaField m ref f = dget ((dget m ref).getD []) f := by
  cases h : dget m ref <;> simp [metaField, h, dget_nil]

theorem metaField_dsetdefaultUpdate (m : Meta) (k : String) (g : Entry → Entry)
    (ref f : String) :
    metaField (dsetdefaultUpdate m k g) ref f =
      if k = ref then dget (g ((dget m k).getD [])) f else metaField m ref f := by
  by_cases hk : k = ref
  · subst hk
    unfold dsetdefaultUpdate
    cases h : dget m k with
    | some e => simp [metaField, dget_dset_self, h]
    | none =>
        rw [if_pos rfl]
        simp only [metaField, dget_append, h, Option.none_or, dget_cons, beq_self_eq_true,
          if_pos]
        simp [h, dget_nil]
  · rw [if_neg hk]
    unfold metaField
    rw [dget_dsetdefaultUpdate_ne _ _ _ _ (fun hh => hk hh.symm)]

/-- The last occurrence of `ref` in a flat list of per-item metadata
assignments: what repeated `dict.update` leaves behind. -/
def lastEntry : List (String × AllocEntry) → String → Option AllocEntry
  | [], _ => none
  | p :: rest, ref =>
      match lastEntry rest ref with
      | some e => some e
      | none => if p.1 = ref then some p.2 else none

theorem metaField_foldl_allocStep (ref : String) :
    ∀ (ps : List (String × AllocEntry)) (m : Meta),
      metaField (ps.foldl allocStep m) ref "brief_description" =
        (match lastEntry ps ref with
         | some e => some e.brief_description
         | none => metaField m ref "brief_description") ∧
      metaField (ps.foldl allocStep m) ref "overs" =
        (match lastEntry ps ref with
         | some e => some e.overs
         | none => metaField m ref "overs") := by
  intro ps
  induction ps with
  | nil => intro m; exact ⟨rfl, rfl⟩
  | cons p ps' ih =>
      intro m
      rw [List.foldl_cons]
      rcases ih (allocStep m p) with ⟨ih1, ih2⟩
      have hstep1 : metaField (allocStep m p) ref "brief_description" =
          if p.1 = ref then some p.2.brief_description
          else metaField m ref "brief_description" := by
        unfold allocStep
        rw [metaField_dsetdefaultUpdate]
        by_cases hk : p.1 = ref
        · simp [hk, dget_updAlloc_bd]
        · simp [hk]
      have hstep2 : metaField (allocStep m p) ref "overs" =
          if p.1 = ref then some p.2.overs else metaField m ref "overs" := by
        unfold allocStep
        rw [metaField_dsetdefaultUpdate]
        by_cases hk : p.1 = ref
        · simp [hk, dget_updAlloc_overs]
        · simp [hk]
      cases hlast : lastEntry ps' ref with
      | some e => simp [lastEntry, hlast, ih1, ih2]
      | none =>
          by_cases hk : p.1 = ref <;>
            simp [lastEntry, hlast, ih1, ih2, hstep1, hstep2, hk]

theorem accum_eq_flat : ∀ (parts : List (List (String × AllocEntry))) (m : Meta),
    parts.foldl processFile m = parts.flatten.foldl allocStep m
  | [], _ => rfl
  | p :: ps, m => by
      rw [List.foldl_cons, List.flatten_cons, List.foldl_append]
      exact accum_eq_flat ps (processFile m p)

theorem merged_store_map (dfs : List Table) :
    (merge_allocations dfs).rows.map (fun r => r.store) = mergedStores dfs := by
  show ((mergedStores dfs).map (fun s => mergedRow dfs s)).map (fun r => r.store)
      = mergedStores dfs
  rw [List.map_map]
  exact List.map_id _

/-! ### Claims -/

/-- C1: `merge_allocations` groups all rows by Store Number; the
merged row of each store carries, in every key-field position, the
first non-null value in input-file order, and, in every item column,
the sum of the group's non-null numeric values with missing values
counting as 0. -/
theorem C1_merge_first_nonnull_and_sums (dfs : List Table) (s : String)
    (hs : s ∈ (concatTables dfs).rows.map (fun r => r.store)) :
    ∃ r, r ∈ (merge_allocations dfs).rows ∧ r.store = s ∧
      (∀ c, c ∈ (concatTables dfs).itemCols →
        getItem r c = some (groupSum dfs s c)) ∧
      (∀ i, i < 10 → r.keys.getD i none =
        firstSome ((groupRows dfs s).map (fun r' => r'.keys.getD i none))) := by
  refine ⟨mergedRow dfs s, ?_, rfl, ?_, ?_⟩
  · show mergedRow dfs s ∈ (mergedStores dfs).map (fun s' => mergedRow dfs s')
    exact List.mem_map_of_mem _ ((mem_mergedStores dfs s).mpr hs)
  · intro c hc
    exact getItem_mergedRow dfs s c hc
  · intro i hi
    show ((List.range 10).map (fun i' =>
      firstSome ((groupRows dfs s).map (fun r' => r'.keys.getD i' none)))).getD i none = _
    simp [List.getD_eq_getElem?_getD, List.getElem?_range, hi]

/-- Scenario table of the spec: File A gives Store Number 1 the
item X001 value 5. -/
def c1A : Table :=
  { itemCols := ["X001"]
    rows := [{ store := "1", keys := [some (Cell.s "Store A")], items := [("X001", some 5)] }] }

/-- Scenario table of the spec: File B gives Store Number 1 the
item X001 value 3. -/
def c1B : Table :=
  { itemCols := ["X001"]
    rows := [{ store := "1", keys := [some (Cell.s "Store B")], items := [("X001", some 3)] }] }

/-- Witness for C1 at the spec's scenario: store 1 with X001 = 5 in
one file and 3 in the other merges to X001 = 8. -/
theorem C1_witness :
    ("1" ∈ (concatTables [c1A, c1B]).rows.map (fun r => r.store)) ∧
    (∃ r, r ∈ (merge_allocations [c1A, c1B]).rows ∧ r.store = "1" ∧
      (∀ c, c ∈ (concatTables [c1A, c1B]).itemCols →
        getItem r c = some (groupSum [c1A, c1B] "1" c)) ∧
      (∀ i, i < 10 → r.keys.getD i none =
        firstSome ((groupRows [c1A, c1B] "1").map (fun r' => r'.keys.getD i none)))) ∧
    groupSum [c1A, c1B] "1" "X001" = 8 :=
  ⟨by decide, C1_merge_first_nonnull_and_sums [c1A, c1B] "1" (by decide), by decide⟩

/-- C2: the merged table has exactly one row per distinct Store
Number seen across all inputs (no duplicates, none dropped), and its
item columns are exactly the union of the inputs' item columns. -/
theorem C2_one_row_per_store_union_item_cols (dfs : List Table) :
    ((merge_allocations dfs).rows.map (fun r => r.store)).Nodup ∧
    (∀ s, s ∈ (merge_allocations dfs).rows.map (fun r => r.store) ↔
      s ∈ (concatTables dfs).rows.map (fun r => r.store)) ∧
    (∀ c, c ∈ (merge_allocations dfs).itemCols ↔ ∃ t, t ∈ dfs ∧ c ∈ t.itemCols) := by
  refine ⟨?_, ?_, ?_⟩
  · rw [merged_store_map]
    exact nodup_mergedStores dfs
  · intro s
    rw [merged_store_map]
    exact mem_mergedStores dfs s
  · intro c
    exact mem_unionItemCols dfs c

/-- C3: the "Total Allocations" header cell of each item column is
the column sum over the merged rows (missing as 0), and the
"Total (inc Overs)" cell is that sum plus the item's overs value
(0 when absent); both are recomputed from the merged table. -/
theorem C3_totals_recomputed_from_merged (master : Table) (meta : Meta)
    (item : String) (o : Int) (hitem : item ∈ writerItemCols master)
    (ho : oversVal meta item = Cell.n o) :
    ("Total Allocations",
        (writerItemCols master).map (fun it => XVal.val (Cell.n (colSum master it))))
      ∈ headerBlock master meta ∧
    headerCellValue master meta "Total Allocations" item
      = XVal.val (Cell.n (colSum master item)) ∧
    headerCellValue master meta "Total (inc Overs)" item
      = XVal.val (Cell.n (colSum master item + o)) := by
  have hTA : ∀ it, headerCellValue master meta "Total Allocations" it
      = XVal.val (Cell.n (colSum master it)) := by
    intro it; simp [headerCellValue]
  refine ⟨?_, hTA item, ?_⟩
  · have hmem : ("Total Allocations",
        (writerItemCols master).map (fun it =>
          headerCellValue master meta "Total Allocations" it)) ∈ headerBlock master meta :=
      List.mem_map_of_mem _ (by decide : ("Total Allocations" : String) ∈ LABELS)
    have hcongr : (writerItemCols master).map (fun it =>
          headerCellValue master meta "Total Allocations" it)
        = (writerItemCols master).map (fun it => XVal.val (Cell.n (colSum master it))) :=
      List.map_congr_left (fun a _ => hTA a)
    rw [hcongr] at hmem
    exact hmem
  · simp [headerCellValue, ho, addOvers]

/-- Witness table for C3: two stores with X001 values 5 and 3. -/
def c3M : Table :=
  { itemCols := ["X001"]
    rows := [{ store := "1", keys := [], items := [("X001", some 5)] },
             { store := "2", keys := [], items := [("X001", some 3)] }] }

/-- Witness metadata for C3: X001 has overs 2. -/
def c3Meta : Meta :=
  [("X001", [("brief_description", Cell.s "desc"), ("overs", Cell.n 2)])]

/-- Witness for C3: Total Allocations 8 and Total (inc Overs) 10. -/
theorem C3_witness :
    (("X001" ∈ writerItemCols c3M) ∧ oversVal c3Meta "X001" = Cell.n 2) ∧
    (("Total Allocations",
        (writerItemCols c3M).map (fun it => XVal.val (Cell.n (colSum c3M it))))
      ∈ headerBlock c3M c3Meta ∧
    headerCellValue c3M c3Meta "Total Allocations" "X001"
      = XVal.val (Cell.n (colSum c3M "X001")) ∧
    headerCellValue c3M c3Meta "Total (inc Overs)" "X001"
      = XVal.val (Cell.n (colSum c3M "X001" + 2))) ∧
    colSum c3M "X001" = 8 :=
  ⟨⟨by decide, by decide⟩,
   C3_totals_recomputed_from_merged c3M c3Meta "X001" 2 (by decide) (by decide),
   by decide⟩

/-- Counterexample table for C4: stores 2 and 10. -/
def c4t : Table :=
  { itemCols := []
    rows := [{ store := "2", keys := [], items := [] },
             { store := "10", keys := [], items := [] }] }

/-- Counterexample grid for C4: one body row whose Store Number cell
holds the non-numeric text ABC. -/
def c4g : Grid := [[], [], [], [], [], [], [], [Cell.s "ABC"]]

/-- C4 counterexample: merging stores 2 and 10 yields the order
10, 2 — ascending as strings, not as numbers — and a non-numeric
Store Number neither fails nor becomes missing: the reader keeps the
text "ABC". -/
theorem C4_counterexample :
    (merge_allocations [c4t]).rows.map (fun r => r.store) = ["10", "2"] ∧
    (merge_allocations [c4t]).rows.map (fun r => (parseStoreNumber r.store).getD 0)
      = [10, 2] ∧
    ¬ (10 : Nat) ≤ 2 ∧
    (extract_df c4g).rows.map (fun r => r.store) = ["ABC"] ∧
    parseStoreNumber "ABC" = none := by decide

/-- C4 (amended): the reader converts Store Number to its string
form (`astype(str)`, total, non-numeric values kept verbatim), and
the merged rows are sorted ascending in lexicographic string order
of the Store Number string. -/
theorem C4_store_number_string_sort (dfs : List Table) (g : Grid) :
    List.Pairwise stringAsc ((merge_allocations dfs).rows.map (fun r => r.store)) ∧
    (extract_df g).rows.map (fun r => r.store) =
      (g.drop (HEADER_ROW + 1)).map (fun cells => strOfCell (cells.getD 0 Cell.blank)) := by
  constructor
  · rw [merged_store_map]
    exact pairwise_sortStrings _
  · show ((g.drop (HEADER_ROW + 1)).map
        (readRow (((g.getD HEADER_ROW []).drop KEY_COLS.length).map strOfCell))).map
          (fun r => r.store)
        = (g.drop (HEADER_ROW + 1)).map (fun cells => strOfCell (cells.getD 0 Cell.blank))
    rw [List.map_map]
    rfl

/-- First counterexample file for C5: X001 described as "desc A"
with overs 1. -/
def c5fileA : List (String × AllocEntry) :=
  [("X001", { brief_description := Cell.s "desc A", overs := Cell.n 1 })]

/-- Second counterexample file for C5: X001 described as "desc B"
with overs 2. -/
def c5fileB : List (String × AllocEntry) :=
  [("X001", { brief_description := Cell.s "desc B", overs := Cell.n 2 })]

/-- C5 counterexample: two files both supply X001's description and
overs; the combined mapping holds the second file's values, not the
first file's. -/
theorem C5_counterexample :
    metaField (accumAllocMeta [c5fileA, c5fileB]) "X001" "brief_description"
      = some (Cell.s "desc B") ∧
    metaField (accumAllocMeta [c5fileA, c5fileB]) "X001" "overs"
      = some (Cell.n 2) ∧
    some (Cell.s "desc B") ≠ some (Cell.s "desc A") := by decide

/-- C5 (amended): when several uploaded files supply the same
per-item metadata field of the same reference, the value of the last
occurrence in upload order wins (`dict.update` overwrites). -/
theorem C5_last_occurrence_wins (parts : List (List (String × AllocEntry)))
    (ref : String) :
    metaField (accumAllocMeta parts) ref "brief_description"
      = (lastEntry parts.flatten ref).map (fun v => v.brief_description) ∧
    metaField (accumAllocMeta parts) ref "overs"
      = (lastEntry parts.flatten ref).map (fun v => v.overs) := by
  unfold accumAllocMeta
  rw [accum_eq_flat]
  rcases metaField_foldl_allocStep ref parts.flatten [] with ⟨h1, h2⟩
  rw [h1, h2]
  cases lastEntry parts.flatten ref <;> simp [metaField, dget_nil]

/-- C6: enriching the combined metadata with a brief entry whose
reference is not an item column of the merged table leaves every
cell of the emitted workbook unchanged. -/
theorem C6_orphan_brief_entry_no_effect (master : Table) (meta : Meta)
    (ec ref : String) (info : BriefInfo) (href : ¬ ref ∈ master.itemCols) :
    write_with_metadata master (dsetdefaultUpdate meta ref (updBrief info)) ec
      = write_with_metadata master meta ec := by
  have hheader : headerBlock master (dsetdefaultUpdate meta ref (updBrief info))
      = headerBlock master meta := by
    unfold headerBlock
    apply List.map_congr_left
    intro label _
    apply congrArg
    apply List.map_congr_left
    intro item hitem
    have hne : item ≠ ref := by
      intro he
      exact href (he ▸ (List.mem_filter.mp hitem).1)
    have hdget : dget (dsetdefaultUpdate meta ref (updBrief info)) item
        = dget meta item := dget_dsetdefaultUpdate_ne _ _ _ _ hne
    simp [headerCellValue, strFieldVal, oversVal, hdget]
  unfold write_with_metadata
  rw [hheader]

/-- Witness master table for C6. -/
def c6M : Table :=
  { itemCols := ["X001"]
    rows := [{ store := "1", keys := [], items := [("X001", some 4)] }] }

/-- Witness metadata for C6. -/
def c6Meta : Meta :=
  [("X001", [("brief_description", Cell.s "d"), ("overs", Cell.n 1)])]

/-- Witness brief entry for C6, keyed by a reference that is not an
item column. -/
def c6Info : BriefInfo :=
  { pos_code := Cell.s "P", project_description := Cell.s "PD"
    part := Cell.s "PT", supplier := Cell.s "S" }

/-- Witness for C6: adding the orphan reference ORPHAN changes
nothing. -/
theorem C6_witness :
    (¬ "ORPHAN" ∈ c6M.itemCols) ∧
    write_with_metadata c6M (dsetdefaultUpdate c6Meta "ORPHAN" (updBrief c6Info)) "EV"
      = write_with_metadata c6M c6Meta "EV" :=
  ⟨by decide, C6_orphan_brief_entry_no_effect c6M c6Meta "EV" "ORPHAN" c6Info (by decide)⟩

/-- C7: a brief sheet missing required columns produces the error
message naming exactly the missing columns and an empty mapping, and
the pipeline's output equals the output with no brief file at all
(it proceeds without enrichment instead of failing). -/
theorem C7_missing_brief_columns_degrade (cb : BriefSheet) (files : List Grid)
    (code : String) (hmiss : missingBriefCols cb ≠ []) :
    load_consolidated_brief (some cb)
      = (some ("Consolidated Brief missing columns: "
          ++ String.intercalate ", " (missingBriefCols cb)), []) ∧
    runApp files (some cb) code = runApp files none code := by
  have hb : (missingBriefCols cb).isEmpty = false := by
    cases hmc : missingBriefCols cb with
    | nil => exact absurd hmc hmiss
    | cons a l => rfl
  constructor
  · simp [load_consolidated_brief, hb]
  · have h2 : (load_consolidated_brief (some cb)).2
        = (load_consolidated_brief none).2 := by
      simp [load_consolidated_brief, hb]
    unfold runApp
    rw [h2]

/-- Witness brief sheet for C7: lacks Project Description, Part and
Supplier. -/
def c7Bad : BriefSheet := { cols := ["Brief Ref", "POS Code"], rows := [] }

/-- Witness for C7. -/
theorem C7_witness :
    (missingBriefCols c7Bad ≠ []) ∧
    (load_consolidated_brief (some c7Bad)
      = (some ("Consolidated Brief missing columns: "
          ++ String.intercalate ", " (missingBriefCols c7Bad)), []) ∧
    runApp [[]] (some c7Bad) "E1" = runApp [[]] none "E1") :=
  ⟨by decide, C7_missing_brief_columns_degrade c7Bad [[]] "E1" (by decide)⟩

/-- C8: a column whose item-reference cell is blank is silently
skipped — dropping it from the reader's column iteration leaves the
extracted per-item metadata unchanged (and the extraction is total,
so no error is raised). -/
theorem C8_blank_ref_column_skipped (g : Grid) (pre post : List Nat) (c : Nat)
    (hblank : cellAt g HEADER_ROW c = Cell.blank) :
    extractMetaOver g (pre ++ c :: post) = extractMetaOver g (pre ++ post) := by
  unfold extractMetaOver
  rw [List.foldl_append, List.foldl_append, List.foldl_cons]
  have hstep : metaStep g (pre.foldl (metaStep g) []) c = pre.foldl (metaStep g) [] := by
    simp [metaStep, hblank, strOfCell]
  rw [hstep]

/-- Witness grid for C8: item column 11 has reference X001, item
column 12 has a blank reference cell. -/
def c8g : Grid :=
  [[], [], [], [], [], [], List.replicate 11 (Cell.s "k") ++ [Cell.s "X001"]]

/-- Witness for C8: column 12's reference cell is blank and skipping
it changes nothing. -/
theorem C8_witness :
    (cellAt c8g HEADER_ROW 12 = Cell.blank) ∧
    extractMetaOver c8g ([11] ++ 12 :: []) = extractMetaOver c8g ([11] ++ []) :=
  ⟨by decide, C8_blank_ref_column_skipped c8g [11] [] 12 (by decide)⟩

/-- C9: with no uploaded allocation file, or an event code that is
empty or whitespace-only, the run stops with a user-visible message
and produces no workbook. -/
theorem C9_preconditions_block (files : List Grid) (brief : Option BriefSheet)
    (code : String) (h : files = [] ∨ pyStrip code = "") :
    ∃ msg, runApp files brief code = Except.error msg := by
  rcases h with h | h
  · subst h
    exact ⟨noFilesMsg, rfl⟩
  · cases files with
    | nil => exact ⟨noFilesMsg, rfl⟩
    | cons f fs =>
        refine ⟨blankCodeMsg, ?_⟩
        simp [runApp, h]

/-- Witness for C9: a whitespace-only event code blocks the run. -/
theorem C9_witness :
    (([[]] : List Grid) = [] ∨ pyStrip "   " = "") ∧
    (∃ msg, runApp [[]] none "   " = Except.error msg) :=
  ⟨Or.inr (by decide), C9_preconditions_block [[]] none "   " (Or.inr (by decide))⟩

/-- C10: the allocation-sourced metadata fields (brief_description,
overs) and the brief-sourced fields (pos_code, project_description,
part, supplier) are disjoint key sets, so applying the brief mapping
via `update` never changes an allocation-sourced field. -/
theorem C10_brief_update_preserves_alloc_fields (m : Meta)
    (bd : List (String × BriefInfo)) (ref f : String) (hf : f ∈ allocFieldKeys) :
    metaField (applyBrief m bd) ref f = metaField m ref f ∧
    (∀ k, k ∈ allocFieldKeys → ¬ k ∈ briefFieldKeys) := by
  refine ⟨?_, by decide⟩
  unfold applyBrief
  induction bd generalizing m with
  | nil => rfl
  | cons p ps ih =>
      rw [List.foldl_cons, ih]
      rw [metaField_dsetdefaultUpdate]
      by_cases hk : p.1 = ref
      · rw [if_pos hk, dget_updBrief_preserve _ _ _ hf, hk]
        exact (metaField_eq_dget_getD m ref f).symm
      · rw [if_neg hk]

/-- Witness metadata for C10. -/
def c10Meta : Meta :=
  [("X001", [("brief_description", Cell.s "d"), ("overs", Cell.n 3)])]

/-- Witness brief dict for C10, enriching the same reference. -/
def c10Bd : List (String × BriefInfo) :=
  [("X001", { pos_code := Cell.s "P", project_description := Cell.s "PD"
              part := Cell.s "PT", supplier := Cell.s "S" })]

/-- Witness for C10: enriching X001 from the brief leaves its overs
field untouched. -/
theorem C10_witness :
    ("overs" ∈ allocFieldKeys) ∧
    (metaField (applyBrief c10Meta c10Bd) "X001" "overs"
        = metaField c10Meta "X001" "overs" ∧
     ∀ k, k ∈ allocFieldKeys → ¬ k ∈ briefFieldKeys) :=
  ⟨by decide,
   C10_brief_update_preserves_alloc_fields c10Meta c10Bd "X001" "overs" (by decide)⟩

end AllocApp
